import Mathlib

/-!
Verification development for the DeadLine research-pipeline repository.

The definitions below are a shallow embedding of the TypeScript source:
pure computations are translated to Lean functions; each effectful step
(network fetch, LLM call, database read or write) is parameterised by an
explicit outcome oracle, and the store operations a run performs are
collected in an explicit trace.  File references in the doc comments point
into the repository source (src/app/api/search/details/route.ts,
src/app/api/search/updates/route.ts, src/unnamed/part_000).
-/

namespace DeadLine

/-! ## JavaScript string primitives -/

/-- Models `String.prototype.toLowerCase` restricted to ASCII characters
(the denylist and image-token constants compared against are all ASCII). -/
def jsToLower (s : String) : String := ⟨s.data.map Char.toLower⟩

/-- Models `String.prototype.toUpperCase` restricted to ASCII characters. -/
def jsToUpper (s : String) : String := ⟨s.data.map Char.toUpper⟩

/-- Models `s.includes(sub)`: substring containment. -/
def jsIncludes (s sub : String) : Bool := decide (sub.data <:+: s.data)

/-- Models `s.substring(0, n)` (also used for `slice(0, n)` on strings). -/
def jsSubstring (s : String) (n : Nat) : String := ⟨s.data.take n⟩

/-- Truthiness of a JavaScript string-or-null value: `null`, `undefined`
and the empty string are falsy, every other string is truthy. -/
def jsTruthy : Option String → Bool
  | none => false
  | some s => !(decide (s = ""))

/-- Models `String.prototype.trim`: drop whitespace at both ends. -/
def jsTrim (s : String) : String :=
  ⟨((s.data.dropWhile Char.isWhitespace).reverse.dropWhile
      Char.isWhitespace).reverse⟩

/-- Worker for `jsRemoveFirst`: drop the first occurrence of `pat`. -/
def jsRemoveFirstAux : List Char → List Char → List Char
  | [], _ => []
  | c :: cs, pat =>
    if pat.isPrefixOf (c :: cs) then (c :: cs).drop pat.length
    else c :: jsRemoveFirstAux cs pat

/-- Models `s.replace(pat, "")` with a plain string pattern: JavaScript
`String.prototype.replace` removes only the first occurrence of `pat`. -/
def jsRemoveFirst (s pat : String) : String :=
  ⟨jsRemoveFirstAux s.data pat.data⟩

/-! ## JSON values and JavaScript object semantics -/

/-- Model of a parsed JSON value (`JSON.parse` output). -/
inductive Json where
  | null
  | bool (b : Bool)
  | num (n : Int)
  | str (s : String)
  | arr (xs : List Json)
  | obj (kvs : List (String × Json))
deriving Repr

/-- Model of a JavaScript object as an ordered association list with
distinct keys first-to-last, as produced by `JSON.parse`. -/
abbrev JsObj := List (String × Json)

/-- Models the JavaScript `field in obj` test (own-key presence; the five
required field names are not `Object.prototype` properties). -/
def jsHasKey : JsObj → String → Bool
  | [], _ => false
  | kv :: rest, k => decide (kv.1 = k) || jsHasKey rest k

/-- Models `obj[k]` read: the value stored under the first binding of `k`. -/
def jsLookup : JsObj → String → Option Json
  | [], _ => none
  | kv :: rest, k => if kv.1 = k then some kv.2 else jsLookup rest k

/-- Models `obj[k] = v`: overwrite the existing binding in place, or append
a new binding at the end.  The same semantics realises a spread override
`{...obj, k: v}`. -/
def jsSet : JsObj → String → Json → JsObj
  | [], k, v => [(k, v)]
  | kv :: rest, k, v =>
    if kv.1 = k then (k, v) :: rest else kv :: jsSet rest k v

/-! ## Search results and the Result Filter
(src/app/api/search/details/route.ts, searchGoogleAndScrape) -/

/-- Normalised web-search result (route.ts interface GoogleSearchResult).
`displayLink` is optional in the source interface. -/
structure GoogleSearchResult where
  title : String
  link : String
  snippet : String
  displayLink : Option String
deriving Repr, DecidableEq

/-- Fixed denylist from route.ts line 309. -/
def excludeDomains : List String :=
  ["reddit.com", "twitter.com", "facebook.com", "youtube.com",
   "instagram.com", "tiktok.com"]

/-- Per-result keep predicate of the news filter (route.ts lines 305-312):
not matching the denylist on the lowercased link or display domain, and
having a truthy title and snippet. -/
def keepResult (r : GoogleSearchResult) : Bool :=
  let url := jsToLower r.link
  let domain := jsToLower (r.displayLink.getD "")
  let isExcluded :=
    excludeDomains.any (fun ex => jsIncludes domain ex || jsIncludes url ex)
  !isExcluded && jsTruthy (some r.title) && jsTruthy (some r.snippet)

/-- The Result Filter (route.ts lines 300-313): a single `Array.filter`
pass whose predicate drops every entry that is not the first occurrence of
its `link` (`index !== self.findIndex(...)`) and every entry failing
`keepResult`. -/
def filterNewsResults (rs : List GoogleSearchResult) : List GoogleSearchResult :=
  (rs.enum.filter (fun p =>
      decide (rs.findIdx (fun r => decide (r.link = p.2.link)) = p.1)
        && keepResult p.2)).map Prod.snd

/-! ## Image search filtering (route.ts, searchImages, lines 200-215) -/

/-- Link filter applied to image-search items (route.ts lines 204-214):
on the lowercased link, excludes favicon/logo/icon assets and requires an
image-like extension or token. -/
def imageUrlFilter (link : String) : Bool :=
  let url := jsToLower link
  !jsIncludes url "favicon.ico" &&
  !jsIncludes url "/logo." &&
  !jsIncludes url "/icon." &&
  (jsIncludes url ".jpg" || jsIncludes url ".jpeg" || jsIncludes url ".png" ||
   jsIncludes url ".webp" || jsIncludes url ".gif" || jsIncludes url ".bmp" ||
   jsIncludes url "image" || jsIncludes url "photo" || jsIncludes url "pic")

/-- Pure core of `searchImages` (route.ts lines 201-215): from the
provider items `.map(item => item.link).filter(Boolean)` (absent and empty
links removed), apply `imageUrlFilter`, then `.slice(0, 10)`. -/
def searchImagesLinks (items : List (Option String)) : List String :=
  (((items.filterMap id).filter (fun l => jsTruthy (some l))).filter
    imageUrlFilter).take 10

/-! ## Content Extractor
(route.ts, extractArticleContent, lines 73-119)

The JavaScript implementation drives a handful of fixed regular
expressions over the page text.  The Lean model reproduces each regex by
direct substring scanning: case-insensitive tag search, first-match
semantics, and the same fallback chain.  The backtracking behaviour of the
regex engine on pathological inputs is approximated (first candidate only),
which affects which text is extracted but not the shape or totality of the
computation. -/

/-- Case-insensitive prefix test on character lists (ASCII folding). -/
def isPrefixOfCI (pat s : List Char) : Bool :=
  (pat.map Char.toLower).isPrefixOf (s.map Char.toLower)

/-- Index of the first case-insensitive occurrence of `pat`, if any. -/
def findIdxOfInfixCI (pat : List Char) : List Char → Option Nat
  | [] => if isPrefixOfCI pat [] then some 0 else none
  | c :: cs =>
    if isPrefixOfCI pat (c :: cs) then some 0
    else (findIdxOfInfixCI pat cs).map Nat.succ

/-- Worker for `removeBlocksCI`; the fuel argument (initially the text
length) bounds the number of removed blocks. -/
def removeBlocksAux (openPat closePat : List Char) : Nat → List Char → List Char
  | 0, cs => cs
  | fuel + 1, cs =>
    match findIdxOfInfixCI openPat cs with
    | none => cs
    | some i =>
      let rest := cs.drop (i + openPat.length)
      match findIdxOfInfixCI closePat rest with
      | none => cs
      | some j =>
        cs.take i ++ removeBlocksAux openPat closePat fuel
          (rest.drop (j + closePat.length))

/-- Models the block-removal regexes of route.ts lines 75-76
(`<script...>...</script>` and `<style...>...</style>`, global,
case-insensitive): every open/close delimited block is deleted. -/
def removeBlocksCI (openPat closePat s : String) : String :=
  ⟨removeBlocksAux openPat.data closePat.data s.data.length s.data⟩

/-- Models `.replace(/<[^>]*>/g, rep)`: each `<...>` run (requiring a
closing angle bracket) is replaced by `rep`; an unterminated `<` tail is
kept verbatim, as the regex does not match it. -/
def stripTagsAux (rep : List Char) : Nat → List Char → List Char
  | 0, cs => cs
  | _ + 1, [] => []
  | fuel + 1, c :: cs =>
    if c == '<' then
      match cs.findIdx? (fun d => d == '>') with
      | none => c :: cs
      | some j => rep ++ stripTagsAux rep fuel (cs.drop (j + 1))
    else c :: stripTagsAux rep fuel cs

/-- Models `.replace(/\s+/g, " ")`: collapse whitespace runs to one space. -/
def collapseWsAux : Nat → List Char → List Char
  | 0, cs => cs
  | _ + 1, [] => []
  | fuel + 1, c :: cs =>
    if c.isWhitespace then ' ' :: collapseWsAux fuel (cs.dropWhile Char.isWhitespace)
    else c :: collapseWsAux fuel cs

/-- Models the title regex of route.ts line 79
(`<title[^>]*>([^<]+)</title>`, first match, case-insensitive). -/
def extractTitleText (cs : List Char) : Option (List Char) :=
  match findIdxOfInfixCI "<title".data cs with
  | none => none
  | some i =>
    let rest := cs.drop (i + 6)
    match rest.findIdx? (fun c => c == '>') with
    | none => none
    | some a =>
      let afterTag := rest.drop (a + 1)
      let text := afterTag.takeWhile (fun c => !(c == '<'))
      if text.isEmpty then none
      else if isPrefixOfCI "</title>".data (afterTag.drop text.length) then some text
      else none

/-- Models the meta-description regex of route.ts line 83: locate
`name="description"`, then capture the following `content="..."` value
(the single-quote attribute variant is elided in the model). -/
def metaDescriptionText (cs : List Char) : Option (List Char) :=
  match findIdxOfInfixCI "name=\"description\"".data cs with
  | none => none
  | some i =>
    let rest := cs.drop (i + 18)
    match findIdxOfInfixCI "content=\"".data rest with
    | none => none
    | some j =>
      let v := (rest.drop (j + 9)).takeWhile (fun c => !(c == '\"'))
      if v.isEmpty then none else some v

/-- Collects every `open ... close` block (full match, tags included),
scanning left to right as a global case-insensitive regex does. -/
def collectBlocksAux (openPat closePat : List Char) : Nat → List Char → List (List Char)
  | 0, _ => []
  | fuel + 1, cs =>
    match findIdxOfInfixCI openPat cs with
    | none => []
    | some i =>
      let fromOpen := cs.drop i
      let rest := cs.drop (i + openPat.length)
      match findIdxOfInfixCI closePat rest with
      | none => []
      | some j =>
        fromOpen.take (openPat.length + j + closePat.length) ::
          collectBlocksAux openPat closePat fuel (rest.drop (j + closePat.length))

/-- Collects `<div ...>...</div>` blocks whose attribute text mentions
`content`, `article` or `post`, modelling the content-labeled `div`
alternative of the route.ts line 87 regex. -/
def collectDivContentAux : Nat → List Char → List (List Char)
  | 0, _ => []
  | fuel + 1, cs =>
    match findIdxOfInfixCI "<div".data cs with
    | none => []
    | some i =>
      let fromOpen := cs.drop i
      let rest := cs.drop (i + 4)
      let attrs := rest.takeWhile (fun c => !(c == '>'))
      let labeled :=
        (findIdxOfInfixCI "content".data attrs).isSome ||
        (findIdxOfInfixCI "article".data attrs).isSome ||
        (findIdxOfInfixCI "post".data attrs).isSome
      match findIdxOfInfixCI "</div>".data rest with
      | none => []
      | some j =>
        let block := fromOpen.take (4 + j + 6)
        let next := rest.drop (j + 6)
        if labeled then block :: collectDivContentAux fuel next
        else collectDivContentAux fuel next

/-- Models the article-block regex of route.ts line 87: all
`<article>`, `<main>` and content-labeled `<div>` blocks.  The regex
alternation interleaves candidates by position; the model concatenates the
three scans, which can only affect tie-breaking of the longest block. -/
def articleBlocksOf (cs : List Char) : List (List Char) :=
  collectBlocksAux "<article".data "</article>".data cs.length cs ++
    collectBlocksAux "<main".data "</main>".data cs.length cs ++
    collectDivContentAux cs.length cs

/-- Models `matches.reduce((a, b) => a.length > b.length ? a : b)`:
the longest block, later blocks winning ties. -/
def longestOf : List (List Char) → List Char
  | [] => []
  | b :: bs => bs.foldl (fun a c => if a.length > c.length then a else c) b

/-- Models route.ts line 93: strip tags to spaces, collapse whitespace,
trim. -/
def stripAndCollapse (b : List Char) : String :=
  jsTrim ⟨collapseWsAux b.length (stripTagsAux [' '] b.length b)⟩

/-- Collects the captures of the paragraph regex of route.ts line 98
(`<p[^>]*>([^<]+)</p>`, global, case-insensitive); route.ts line 100 then
strips the tags, leaving exactly the captured text. -/
def collectParagraphsAux : Nat → List Char → List (List Char)
  | 0, _ => []
  | fuel + 1, cs =>
    match findIdxOfInfixCI "<p".data cs with
    | none => []
    | some i =>
      let rest := cs.drop (i + 2)
      match rest.findIdx? (fun c => c == '>') with
      | none => []
      | some a =>
        let afterTag := rest.drop (a + 1)
        let text := afterTag.takeWhile (fun c => !(c == '<'))
        let close := afterTag.drop text.length
        if !text.isEmpty && isPrefixOfCI "</p>".data close then
          text :: collectParagraphsAux fuel (close.drop 4)
        else collectParagraphsAux fuel rest

/-- The fallback chain of route.ts lines 87-107: longest article block,
then concatenated paragraph text when shorter than 200 characters, then
the meta description when still shorter than 100 characters. -/
def contentOf (clean : List Char) (metaContent : String) : String :=
  let blocks := articleBlocksOf clean
  let content1 := if blocks.isEmpty then "" else stripAndCollapse (longestOf blocks)
  let content2 :=
    if content1 = "" ∨ content1.length < 200 then
      let ps := collectParagraphsAux clean.length clean
      if ps.isEmpty then content1
      else jsTrim ⟨List.intercalate [' '] ps⟩
    else content1
  if content2 = "" ∨ content2.length < 100 then metaContent else content2

/-- Scheme characters after the leading letter (WHATWG URL: ASCII
alphanumeric, plus, minus, dot). -/
def isSchemeChar (c : Char) : Bool :=
  c.isAlphanum || c == '+' || c == '-' || c == '.'

/-- The special schemes whose URLs require a nonempty host (`file` is
special too but allows a hostless form and is handled separately). -/
def specialSchemes : List String := ["http", "https", "ws", "wss", "ftp"]

/-- Forbidden host code points that survive authority delimiting
(WHATWG forbidden-host list restricted to characters the authority scan
can still contain): C0 controls, DEL, space, `<`, `>`, `^`, `|`. -/
def forbiddenHostChar (c : Char) : Bool :=
  decide (c.toNat ≤ 31) || c.toNat == 127 ||
  c == ' ' || c == '<' || c == '>' || c == '^' || c == '|'

/-- Forbidden-domain code points (special-scheme hosts additionally
reject a percent sign). -/
def forbiddenDomainChar (c : Char) : Bool :=
  forbiddenHostChar c || c == '%'

/-- Bracketed IPv6 host: accepted when the closing bracket is present and
returned verbatim up to it (address canonicalisation elided). -/
def bracketHost (hostPort : List Char) : Option String :=
  if hostPort.contains ']' then
    some (jsToLower ⟨(hostPort.takeWhile (fun c => !(c == ']'))) ++ [']']⟩)
  else none

/-- Models the WHATWG `new URL(s).hostname` builtin on absolute URLs.
Following the standard: tab, LF and CR are removed anywhere and leading
and trailing C0-or-space characters are trimmed; the scheme is a letter
followed by scheme characters and a colon (anything else throws, since
the call site passes no base); for the special schemes http/https/ws/wss/
ftp any run of slashes or backslashes after the colon is skipped and a
nonempty, forbidden-character-free host is required (userinfo and port
stripped, host lowercased); `file:` URLs accept an empty host (a
`localhost` file host maps to the empty string); every other scheme
yields an empty hostname for an opaque path (`mailto:`, `javascript:`,
`data:`), or parses an authority that may be empty after `//`.
Elided normalisations that affect only the returned text, not
acceptance: IDN/punycode mapping, percent-decoding, and IPv4/IPv6
canonicalisation (bracketed IPv6 hosts are returned verbatim). -/
def urlHostname (s : String) : Option String :=
  let noTabNl := s.data.filter (fun c => !(c == '\t' || c == '\n' || c == '\r'))
  let front := noTabNl.dropWhile (fun c => decide (c.toNat ≤ 32))
  let cs := (front.reverse.dropWhile (fun c => decide (c.toNat ≤ 32))).reverse
  match cs with
  | [] => none
  | c0 :: _ =>
    if !c0.isAlpha then none
    else
      let schemeChars := cs.takeWhile isSchemeChar
      match cs.drop schemeChars.length with
      | ':' :: after =>
        let scheme : String := jsToLower ⟨schemeChars⟩
        if specialSchemes.contains scheme then
          let rest := after.dropWhile (fun c => c == '/' || c == '\\')
          let authority := rest.takeWhile
            (fun c => !(c == '/' || c == '\\' || c == '?' || c == '#'))
          let hostPort :=
            (authority.reverse.takeWhile (fun c => !(c == '@'))).reverse
          if hostPort.head? = some '[' then bracketHost hostPort
          else
            let host := hostPort.takeWhile (fun c => !(c == ':'))
            if host.isEmpty || host.any forbiddenDomainChar then none
            else some (jsToLower ⟨host⟩)
        else if scheme = "file" then
          match after with
          | '/' :: '/' :: rest =>
            let host := rest.takeWhile
              (fun c => !(c == '/' || c == '\\' || c == '?' || c == '#'))
            if host.any forbiddenDomainChar then none
            else
              let h := jsToLower ⟨host⟩
              some (if h = "localhost" then "" else h)
          | _ => some ""
        else
          match after with
          | '/' :: '/' :: rest =>
            let authority := rest.takeWhile
              (fun c => !(c == '/' || c == '?' || c == '#'))
            let hostPort :=
              (authority.reverse.takeWhile (fun c => !(c == '@'))).reverse
            if hostPort.head? = some '[' then bracketHost hostPort
            else
              let host := hostPort.takeWhile (fun c => !(c == ':'))
              if host.any forbiddenHostChar then none
              else some (jsToLower ⟨host⟩)
          | _ => some ""
      | _ => none

/-- Extracted article (route.ts interface ScrapedArticle); route.ts always
fills `publishDate` and `author` with the empty string. -/
structure ScrapedArticle where
  url : String
  title : String
  content : String
  publishDate : String
  author : String
  source : String
deriving Repr, DecidableEq

/-- Model of `extractArticleContent(html, url)` (route.ts lines 73-119).
Every string-processing step is total; the single partial operation is
`new URL(url)` on line 109, modelled by `urlHostname`: the function
returns `none` exactly when the URL constructor throws. -/
def extractArticleContent (html url : String) : Option ScrapedArticle :=
  let clean1 := removeBlocksCI "<script" "</script>" html
  let clean := removeBlocksCI "<style" "</style>" clean1
  let title :=
    match extractTitleText clean.data with
    | none => ""
    | some t => jsTrim ⟨t⟩
  let metaContent : String :=
    match metaDescriptionText clean.data with
    | none => ""
    | some m => ⟨m⟩
  let content := contentOf clean.data metaContent
  match urlHostname url with
  | none => none
  | some host =>
    some { url := url, title := title, content := jsSubstring content 5000,
           publishDate := "", author := "", source := jsRemoveFirst host "www." }

/-! ## Synthesis Engine: response validation
(route.ts, processArticlesWithGroq, lines 443-452) -/

/-- The JSON template of route.ts lines 50-56 (sources removed from the
template by the source).  Only the container shape of each value matters
to the validation step, via `Array.isArray`. -/
def EVENT_DETAILS_TEMPLATE : JsObj :=
  [("location", Json.str "string - Specific location where the event occurred (city, state, country)"),
   ("details", Json.str "string - Comprehensive description of what happened, including context and circumstances"),
   ("accused", Json.arr [Json.str "array of strings - Names and descriptions of accused parties or perpetrators"]),
   ("victims", Json.arr [Json.str "array of strings - Names and descriptions of victims or affected parties"]),
   ("timeline", Json.arr [Json.str "array of strings - Chronological sequence of events with dates/times when available"])]

/-- The required field list of route.ts line 446. -/
def requiredFields : List String :=
  ["location", "details", "accused", "victims", "timeline"]

/-- Models `Array.isArray`. -/
def isJsonArray : Json → Bool
  | Json.arr _ => true
  | _ => false

/-- The backfill value of route.ts line 449:
`Array.isArray(EVENT_DETAILS_TEMPLATE[field]) ? [] : ""`. -/
def templateEmptyValue (f : String) : Json :=
  match jsLookup EVENT_DETAILS_TEMPLATE f with
  | some v => if isJsonArray v then Json.arr [] else Json.str ""
  | none => Json.str ""

/-- The validation loop of route.ts lines 446-451: for each required field
in order, if the key is absent from the parsed LLM JSON it is assigned the
template-shaped empty value; present keys are left untouched. -/
def backfillRequiredFields (parsed : JsObj) : JsObj :=
  requiredFields.foldl
    (fun acc f => if jsHasKey acc f then acc else jsSet acc f (templateEmptyValue f))
    parsed

/-! ## Synthesis Engine: prompt article selection
(route.ts lines 354-368 and src/unnamed/part_000 lines 355-370) -/

/-- Prompt entry for one article in the main details route (route.ts lines
356-368): the full extracted content is embedded, no per-article cap. -/
def articleEntryMain (i : Nat) (a : ScrapedArticle) : String :=
  "\n=== ARTICLE " ++ toString (i + 1) ++ ": " ++ jsToUpper a.source ++ " ===\n" ++
  "URL: " ++ a.url ++ "\n" ++
  "Title: " ++ a.title ++ "\n" ++
  (if jsTruthy (some a.publishDate) then "Published: " ++ a.publishDate else "") ++ "\n" ++
  (if jsTruthy (some a.author) then "Author: " ++ a.author else "") ++ "\n\n" ++
  "Content:\n" ++ a.content ++ "\n\n---"

/-- Articles embedded in the prompt by the main details route (route.ts
line 356): `scrapedData.articles.map(...)` over all scraped articles,
in scrape order, with no cap and no sorting. -/
def promptArticlesMain (articles : List ScrapedArticle) : List ScrapedArticle :=
  articles

/-- Prompt entries of the main details route. -/
def articleEntriesMain (articles : List ScrapedArticle) : List String :=
  (promptArticlesMain articles).enum.map (fun p => articleEntryMain p.1 p.2)

/-- Article selection of the part_000 variant (part_000 lines 357-359):
stable sort by extracted-content length, longest first (the JavaScript
`sort((a, b) => b.content.length - a.content.length)` comparator), then
the first 15. -/
def topArticlesVariant (articles : List ScrapedArticle) : List ScrapedArticle :=
  (articles.mergeSort (fun a b => decide (b.content.length ≤ a.content.length))).take 15

/-- Prompt entry for one article in the part_000 variant (lines 361-369):
content truncated to 3500 characters. -/
def articleEntryVariant (i : Nat) (a : ScrapedArticle) : String :=
  "\n=== ARTICLE " ++ toString (i + 1) ++ ": " ++ jsToUpper a.source ++ " ===\n" ++
  "Title: " ++ a.title ++ "\n" ++
  "URL: " ++ a.url ++ "\n" ++
  "Content: " ++ jsSubstring a.content 3500 ++ "\n---"

/-- Prompt entries of the part_000 variant. -/
def articleEntriesVariant (articles : List ScrapedArticle) : List String :=
  (topArticlesVariant articles).enum.map (fun p => articleEntryVariant p.1 p.2)

/-! ## Pipeline Orchestrator for the details route
(route.ts, processEvent and the fetch/scrape plumbing around it)

Each network or database effect is parameterised by an outcome oracle, and
the writes the run performs against the store are collected in order in a
trace. -/

/-- Event row read from the events table (route.ts fetchEventFromDatabase). -/
structure EventData where
  query : String
  title : String
deriving Repr, DecidableEq

/-- Outcome oracles for one run of the details pipeline. -/
structure DetailsOracles where
  /-- Outcome of `fetchEventFromDatabase` (row lookup; throws on a missing
  row or missing query). -/
  eventFetch : Except String EventData
  /-- When `some msg`, `searchGoogleAndScrape` threw (missing credentials
  or a wrapped provider error) with that message. -/
  searchFailure : Option String
  /-- Accumulated raw provider results of the three search pages. -/
  rawResults : List GoogleSearchResult
  /-- Outcome of the HTTP fetch per article URL: the body text, or `none`
  for a timeout, non-2xx response or network failure. -/
  htmlOf : String → Option String
  /-- Link fields of the image-search provider items. -/
  imageItems : List (Option String)
  /-- Outcome of the LLM call and JSON recovery inside
  `processArticlesWithGroq`: the parsed candidate JSON object, or the
  thrown error. -/
  groq : Except String JsObj
  /-- Database error of `saveEventDetails`, when it fails. -/
  saveError : Option String
  /-- Database error of `updateEventTimestamp`, when it fails. -/
  timestampError : Option String

/-- Scrape targets (route.ts line 318): first 20 filtered results. -/
def articlesToScrape (o : DetailsOracles) : List GoogleSearchResult :=
  (filterNewsResults o.rawResults).take 20

/-- Models `scrapeArticle` (route.ts lines 122-150): fetch the body and
extract; any failure (including a URL the constructor rejects) yields
`null`. -/
def scrapeArticle (htmlOf : String → Option String) (url : String) :
    Option ScrapedArticle :=
  (htmlOf url).bind (fun h => extractArticleContent h url)

/-- Settled fan-out outcomes of the scrape batch (route.ts lines 321-322);
`scrapeArticle` never rejects, so every promise fulfills. -/
def fetchOutcomes (o : DetailsOracles) : List (Option ScrapedArticle) :=
  (articlesToScrape o).map (fun r => scrapeArticle o.htmlOf r.link)

/-- Models route.ts lines 324-329: keep fulfilled non-null scrapes whose
content exceeds the 100-character minimum-content threshold. -/
def successfulArticles (outs : List (Option ScrapedArticle)) : List ScrapedArticle :=
  (outs.filterMap id).filter (fun a => decide (a.content.length > 100))

/-- The scraped articles of the run. -/
def scrapedDataArticles (o : DetailsOracles) : List ScrapedArticle :=
  successfulArticles (fetchOutcomes o)

/-- Models route.ts lines 577-579: source URLs derived from the scraped
articles with a truthy url and content above the threshold. -/
def scrapedSourceUrls (articles : List ScrapedArticle) : List String :=
  (articles.filter (fun a =>
    jsTruthy (some a.url) && decide (a.content.length > 100))).map (fun a => a.url)

/-- Store writes of the details pipeline, in issue order, each recorded
with whether the store accepted it. -/
inductive StoreOp where
  | saveDetails (data : JsObj) (ok : Bool)
  | advanceWatermark (ok : Bool)
deriving Repr

/-- Models `processEvent` (route.ts lines 554-603): fetch the event row,
search and scrape, fail on zero qualifying articles, synthesize, attach
`sources` and `images` by a spread override, save the details (fatal on
store error), then advance the watermark (store error swallowed).
Returns the thrown error or the persisted record, plus the trace of store
writes. -/
def processEvent (o : DetailsOracles) : Except String JsObj × List StoreOp :=
  match o.eventFetch with
  | Except.error e => (Except.error e, [])
  | Except.ok _ =>
    match o.searchFailure with
    | some e => (Except.error e, [])
    | none =>
      let articles := scrapedDataArticles o
      if articles.isEmpty then
        (Except.error "No article content could be scraped from search results", [])
      else
        match o.groq with
        | Except.error e => (Except.error e, [])
        | Except.ok parsed =>
          let analyzedData := backfillRequiredFields parsed
          let structuredData :=
            jsSet (jsSet analyzedData "sources"
                (Json.arr ((scrapedSourceUrls articles).map Json.str)))
              "images"
              (Json.arr ((searchImagesLinks o.imageItems).map Json.str))
          match o.saveError with
          | some e =>
            (Except.error ("Failed to save event details: " ++ e),
             [StoreOp.saveDetails structuredData false])
          | none =>
            (Except.ok structuredData,
             [StoreOp.saveDetails structuredData true,
              StoreOp.advanceWatermark o.timestampError.isNone])

/-- Persisted record of a run whose LLM stage returned `parsed`. -/
def structuredDataOf (o : DetailsOracles) (parsed : JsObj) : JsObj :=
  jsSet (jsSet (backfillRequiredFields parsed) "sources"
      (Json.arr ((scrapedSourceUrls (scrapedDataArticles o)).map Json.str)))
    "images" (Json.arr ((searchImagesLinks o.imageItems).map Json.str))

/-- Models the credential test `!api_key || api_key !== API_SECRET_KEY`
shared by the details GET handler (route.ts line 614) and
`processEventUpdate` (updates route line 142): a missing or empty key
fails, and otherwise a strict comparison against the configured secret
(itself possibly unset). -/
def apiKeyCheckFails (apiKey secret : Option String) : Bool :=
  !(jsTruthy apiKey) || !(decide (apiKey = secret))

/-- Response status of the details GET handler (route.ts lines 606-661):
401 on a failed credential check, 400 on a missing event id, 200 on
success, 500 on any error thrown by `processEvent`. -/
def detailsGETStatus (apiKey eventId secret : Option String)
    (o : DetailsOracles) : Nat :=
  if apiKeyCheckFails apiKey secret then 401
  else if !(jsTruthy eventId) then 400
  else
    match (processEvent o).1 with
    | Except.ok _ => 200
    | Except.error _ => 500

/-- Response status of the details POST handler (route.ts lines 664-700):
500 when the body fails to parse, 400 on a missing event id, otherwise
200/500 from `processEvent`.  The handler performs no credential check. -/
def detailsPOSTStatus (bodyParse : Except Unit (Option String))
    (o : DetailsOracles) : Nat :=
  match bodyParse with
  | Except.error _ => 500
  | Except.ok eventId =>
    if !(jsTruthy eventId) then 400
    else
      match (processEvent o).1 with
      | Except.ok _ => 200
      | Except.error _ => 500

/-! ## Incremental Update Detector
(src/app/api/search/updates/route.ts)

Dates are modelled as milliseconds since the epoch (`Int`); an invalid
JavaScript `Date` is `none`.  Raw date-string parsing (`new Date(s)`) is
implementation-defined in JavaScript and is therefore an oracle
parameter. -/

/-- Models `parseArticleDate` (updates route lines 100-116): `null` for an
absent or empty date string, an unparseable date, or a date in the future;
otherwise the parsed date. -/
def parseArticleDate (parse : String → Option Int) (now : Int)
    (dateString : Option String) : Option Int :=
  match dateString with
  | none => none
  | some s =>
    if s = "" then none
    else
      match parse s with
      | none => none
      | some t => if t > now then none else some t

/-- Models `isArticleNewer` (updates route lines 119-122): `false` for a
`null` article date, otherwise the JavaScript `articleDate > lastUpdated`
comparison, which is `false` when `lastUpdated` is an invalid date. -/
def isArticleNewer (articleDate lastUpdated : Option Int) : Bool :=
  match articleDate with
  | none => false
  | some t =>
    match lastUpdated with
    | none => false
    | some lu => decide (lu < t)

/-- Models `parseInt` on the event-id parameter: optional sign and leading
decimal digits after trimming; `none` models `NaN`.  (The radix-prefix
forms of `parseInt` are not exercised by event ids.) -/
def jsParseInt (s : String) : Option Int :=
  let cs := s.data.dropWhile Char.isWhitespace
  let signed : Bool × List Char :=
    match cs with
    | c :: rest =>
      if c == '-' then (true, rest)
      else if c == '+' then (false, rest) else (false, cs)
    | [] => (false, [])
  let digits := signed.2.takeWhile Char.isDigit
  if digits.isEmpty then none
  else
    let n : Nat := digits.foldl (fun acc c => acc * 10 + (c.toNat - 48)) 0
    some (if signed.1 then -(n : Int) else (n : Int))

/-- Event row of the updates route (interface Event). -/
structure UpdateEvent where
  event_id : Int
  query : String
  last_updated : Option String
deriving Repr

/-- Search result of the updates route (interface GoogleSearchResult
there), with the provider-extracted published date. -/
structure UpdateSearchResult where
  title : String
  snippet : String
  link : String
  publishedDate : Option String
deriving Repr, DecidableEq

/-- Validated LLM analysis (interface GroqAnalysisResponse), as returned
by a successful `analyzeWithGroq`. -/
structure GroqAnalysis where
  title : String
  description : String
  relevance_score : Int
  key_insights : List String
  summary : String
deriving Repr, DecidableEq

/-- Row inserted into event_updates (interface UpdateRecord). -/
structure UpdateRecord where
  event_id : Int
  title : String
  description : String
  update_date : String
deriving Repr, DecidableEq

/-- Effects performed by one run of the updates pipeline, in issue order. -/
inductive UpdateOp where
  | llmCall
  | insertUpdate (row : UpdateRecord) (ok : Bool)
  | advanceWatermark (ok : Bool)
deriving Repr, DecidableEq

/-- Outcome of `processEventUpdate`, abstracting the JSON payloads. -/
inductive UpdateOutcome where
  | unauthorized
  | badRequest
  | eventNotFound
  | noNewUpdates
  | analysisFailed
  | insertFailed
  | success (row : UpdateRecord)
deriving Repr, DecidableEq

/-- HTTP status of each `processEventUpdate` outcome, as set by the
source handlers. -/
def updateStatusOf : UpdateOutcome → Nat
  | UpdateOutcome.unauthorized => 401
  | UpdateOutcome.badRequest => 400
  | UpdateOutcome.eventNotFound => 404
  | UpdateOutcome.noNewUpdates => 200
  | UpdateOutcome.analysisFailed => 500
  | UpdateOutcome.insertFailed => 500
  | UpdateOutcome.success _ => 200

/-- Outcome oracles for one run of the updates pipeline. -/
structure UpdatesOracles where
  /-- Credential as resolved by `getRequestParams`. -/
  apiKey : Option String
  /-- Configured `API_SECRET_KEY`. -/
  secret : Option String
  /-- Raw event-id parameter. -/
  eventId : Option String
  /-- Row returned by the events-table lookup; `none` covers both a lookup
  error and a missing row. -/
  eventRow : Option UpdateEvent
  /-- Models `new Date(s).getTime()` on date strings; `none` is an invalid
  date. -/
  dateParse : String → Option Int
  /-- The current clock in milliseconds. -/
  now : Int
  /-- The current clock as an ISO string (for the inserted row). -/
  nowIso : String
  /-- Results of `searchGoogleForUpdates` (its own errors already degrade
  to an empty list in the source). -/
  searchResults : List UpdateSearchResult
  /-- Outcome of `analyzeWithGroq`: `none` models every failure path
  (no response, parse failure, missing title/description), which the
  source maps to `null`. -/
  groqAnalysis : Option GroqAnalysis
  /-- Database error of the event_updates insert, when it fails. -/
  insertError : Option String
  /-- Database error of the events-table watermark update, when it fails
  (swallowed by the source). -/
  timestampError : Option String

/-- Watermark read of updates route line 191:
`event.last_updated ? new Date(event.last_updated) : new Date(0)`. -/
def eventLastUpdated (parse : String → Option Int) (row : UpdateEvent) : Option Int :=
  match row.last_updated with
  | none => some 0
  | some s => if s = "" then some 0 else parse s

/-- The new-article filter of updates route lines 209-212. -/
def filteredUpdateResults (u : UpdatesOracles) (lastUpdated : Option Int) :
    List UpdateSearchResult :=
  u.searchResults.filter (fun r =>
    isArticleNewer (parseArticleDate u.dateParse u.now r.publishedDate) lastUpdated)

/-- Models `processEventUpdate` (updates route lines 125-310): credential
check, parameter validation, event lookup, the newer-than-watermark
filter with its zero-result short-circuit, LLM analysis, event_updates
insert (fatal on store error) and watermark advance (store error
swallowed).  Returns the outcome and the trace of effects. -/
def processEventUpdate (u : UpdatesOracles) : UpdateOutcome × List UpdateOp :=
  if apiKeyCheckFails u.apiKey u.secret then (UpdateOutcome.unauthorized, [])
  else if !(jsTruthy u.eventId) then (UpdateOutcome.badRequest, [])
  else
    match jsParseInt (u.eventId.getD "") with
    | none => (UpdateOutcome.badRequest, [])
    | some _ =>
      match u.eventRow with
      | none => (UpdateOutcome.eventNotFound, [])
      | some row =>
        let lastUpdated := eventLastUpdated u.dateParse row
        let filtered := filteredUpdateResults u lastUpdated
        if filtered.isEmpty then (UpdateOutcome.noNewUpdates, [])
        else
          match u.groqAnalysis with
          | none => (UpdateOutcome.analysisFailed, [UpdateOp.llmCall])
          | some a =>
            let urow : UpdateRecord :=
              { event_id := row.event_id, title := jsSubstring a.title 100,
                description := jsSubstring a.description 1000,
                update_date := u.nowIso }
            match u.insertError with
            | some _ =>
              (UpdateOutcome.insertFailed,
               [UpdateOp.llmCall, UpdateOp.insertUpdate urow false])
            | none =>
              (UpdateOutcome.success urow,
               [UpdateOp.llmCall, UpdateOp.insertUpdate urow true,
                UpdateOp.advanceWatermark u.timestampError.isNone])

/-- Response status of the updates GET handler (updates route lines
313-333): its wrapper returns 400 when either parameter is missing —
including a missing credential — before `processEventUpdate` runs. -/
def updatesGETStatus (u : UpdatesOracles) : Nat :=
  if !(jsTruthy u.eventId) || !(jsTruthy u.apiKey) then 400
  else updateStatusOf (processEventUpdate u).1

/-- Response status of the updates POST handler (updates route lines
336-356): 500 when the body fails to parse, then the same wrapper check. -/
def updatesPOSTStatus (bodyParse : Except Unit Unit) (u : UpdatesOracles) : Nat :=
  match bodyParse with
  | Except.error _ => 500
  | Except.ok _ =>
    if !(jsTruthy u.eventId) || !(jsTruthy u.apiKey) then 400
    else updateStatusOf (processEventUpdate u).1

/-! ## Concrete demonstration inputs used by witness theorems -/

/-- Page body with one long paragraph (content clears the 100-character
minimum-content threshold). -/
def demoHtml : String :=
  "<p>" ++ String.mk (List.replicate 120 'a') ++ "</p>"

/-- A run in which every step succeeds; the LLM answer even carries a
hallucinated `sources` key. -/
def demoOraclesOk : DetailsOracles :=
  { eventFetch := Except.ok { query := "test query", title := "Test" },
    searchFailure := none,
    rawResults := [{ title := "T", link := "https://example.com/a",
                     snippet := "S", displayLink := some "example.com" }],
    htmlOf := fun _ => some demoHtml,
    imageItems := [],
    groq := Except.ok
      [("sources", Json.arr [Json.str "https://hallucinated.example/x"]),
       ("location", Json.str "Springfield")],
    saveError := none,
    timestampError := none }

/-- The record the successful demonstration run hands to the store. -/
def demoSavedObj : JsObj :=
  match (processEvent demoOraclesOk).2 with
  | StoreOp.saveDetails d _ :: _ => d
  | _ => []

/-- The same run with a failing details write. -/
def demoOraclesSaveFail : DetailsOracles :=
  { demoOraclesOk with saveError := some "disk full" }

/-- A details run whose event lookup fails (missing row). -/
def demoOraclesNoEvent : DetailsOracles :=
  { eventFetch := Except.error "Event not found in events table: no rows",
    searchFailure := none,
    rawResults := [],
    htmlOf := fun _ => none,
    imageItems := [],
    groq := Except.error "not reached",
    saveError := none,
    timestampError := none }

/-- An updates run with the watermark equal to the clock and every search
result dated strictly earlier (or undated). -/
def demoUpdatesNoNew : UpdatesOracles :=
  { apiKey := some "k", secret := some "k", eventId := some "7",
    eventRow := some { event_id := 7, query := "q",
                       last_updated := some "2024-01-02" },
    dateParse := fun s =>
      if s = "2024-01-02" then some 1000
      else if s = "2024-01-01" then some 500 else none,
    now := 1000, nowIso := "now",
    searchResults :=
      [{ title := "a", snippet := "s", link := "https://n.com/1",
         publishedDate := some "2024-01-01" },
       { title := "b", snippet := "s", link := "https://n.com/2",
         publishedDate := none }],
    groqAnalysis := some { title := "T", description := "D",
                           relevance_score := 5, key_insights := [],
                           summary := "S" },
    insertError := none, timestampError := none }

/-- An updates run that finds a qualifying result but whose event-updates
insert fails. -/
def demoUpdatesInsertFail : UpdatesOracles :=
  { demoUpdatesNoNew with
    searchResults :=
      [{ title := "a", snippet := "s", link := "https://n.com/1",
         publishedDate := some "2024-01-03" }],
    dateParse := fun s =>
      if s = "2024-01-02" then some 900
      else if s = "2024-01-03" then some 950 else none,
    insertError := some "constraint violation" }

/-- An updates run whose event lookup finds no row. -/
def demoUpdatesNoRow : UpdatesOracles :=
  { demoUpdatesNoNew with eventRow := none }

/-- Sixteen scraped articles whose extracted bodies strictly grow in
length, shortest first. -/
def demoArts16 : List ScrapedArticle :=
  (List.range 16).map (fun i =>
    { url := "https://example.com/" ++ toString i, title := "t",
      content := String.mk (List.replicate (101 + i) 'a'),
      publishDate := "", author := "", source := "example.com" })

/-- Date parser used by the update-detector witness. -/
def demoDateParse : String → Option Int :=
  fun s => if s = "d" then some 700 else none

/-! ## Helper lemmas: JavaScript object operations and the backfill fold -/

theorem jsLookup_jsSet_self (m : JsObj) (k : String) (v : Json) :
    jsLookup (jsSet m k v) k = some v := by
  induction m with
  | nil => simp [jsSet, jsLookup]
  | cons kv rest ih =>
    by_cases h : kv.1 = k
    · simp [jsSet, h, jsLookup]
    · simp [jsSet, h, jsLookup, ih]

theorem jsLookup_jsSet_of_ne (m : JsObj) (k k2 : String) (v : Json)
    (h : ¬(k2 = k)) : jsLookup (jsSet m k v) k2 = jsLookup m k2 := by
  have hs : ¬(k = k2) := fun a => h a.symm
  induction m with
  | nil => simp [jsSet, jsLookup, hs]
  | cons kv rest ih =>
    by_cases hk : kv.1 = k
    · simp [jsSet, hk, jsLookup, hs]
    · by_cases h2 : kv.1 = k2 <;> simp [jsSet, hk, jsLookup, h2, ih, h, hs]

theorem jsHasKey_jsSet_self (m : JsObj) (k : String) (v : Json) :
    jsHasKey (jsSet m k v) k = true := by
  induction m with
  | nil => simp [jsSet, jsHasKey]
  | cons kv rest ih =>
    by_cases h : kv.1 = k <;> simp [jsSet, h, jsHasKey, ih]

theorem jsHasKey_jsSet_of_ne (m : JsObj) (k k2 : String) (v : Json)
    (h : ¬(k2 = k)) : jsHasKey (jsSet m k v) k2 = jsHasKey m k2 := by
  have hs : ¬(k = k2) := fun a => h a.symm
  induction m with
  | nil => simp [jsSet, jsHasKey, hs]
  | cons kv rest ih =>
    by_cases hk : kv.1 = k
    · subst hk
      simp [jsSet, jsHasKey, hs]
    · by_cases h2 : kv.1 = k2 <;> simp [jsSet, hk, jsHasKey, h2, ih, h, hs]


theorem backfill_step_hasKey (acc : JsObj) (f k : String)
    (h : jsHasKey acc k = true) :
    jsHasKey (if jsHasKey acc f then acc else jsSet acc f (templateEmptyValue f)) k = true := by
  by_cases hf : jsHasKey acc f = true
  · simp [hf, h]
  · simp only [Bool.not_eq_true] at hf
    by_cases hkf : k = f
    · subst hkf
      simp [hf, jsHasKey_jsSet_self]
    · simp [hf, jsHasKey_jsSet_of_ne acc f k _ hkf, h]

theorem backfill_foldl_hasKey_mono (L : List String) (acc : JsObj) (k : String)
    (h : jsHasKey acc k = true) :
    jsHasKey (L.foldl (fun acc f =>
      if jsHasKey acc f then acc else jsSet acc f (templateEmptyValue f)) acc) k = true := by
  induction L generalizing acc with
  | nil => exact h
  | cons g t ih => exact ih _ (backfill_step_hasKey acc g k h)

theorem backfill_foldl_mem_hasKey (L : List String) (acc : JsObj) :
    ∀ f ∈ L, jsHasKey (L.foldl (fun acc f =>
      if jsHasKey acc f then acc else jsSet acc f (templateEmptyValue f)) acc) f = true := by
  induction L generalizing acc with
  | nil => intro f hf; simp at hf
  | cons g t ih =>
    intro f hf
    rcases List.mem_cons.mp hf with hfg | hft
    · subst hfg
      rw [List.foldl_cons]
      apply backfill_foldl_hasKey_mono
      by_cases hg : jsHasKey acc f = true
      · rw [if_pos hg]; exact hg
      · rw [if_neg hg]; exact jsHasKey_jsSet_self acc f _
    · exact ih _ f hft

theorem backfill_foldl_lookup_of_hasKey (L : List String) (acc : JsObj) (k : String)
    (h : jsHasKey acc k = true) :
    jsLookup (L.foldl (fun acc f =>
      if jsHasKey acc f then acc else jsSet acc f (templateEmptyValue f)) acc) k
      = jsLookup acc k := by
  induction L generalizing acc with
  | nil => rfl
  | cons g t ih =>
    simp only [List.foldl_cons]
    by_cases hg : jsHasKey acc g = true
    · simp only [hg, if_true]
      exact ih acc h
    · simp only [Bool.not_eq_true] at hg
      have hkg : ¬(k = g) := by
        intro e; subst e; rw [h] at hg; exact Bool.true_eq_false.mp hg
      simp only [hg, Bool.false_eq_true, if_false]
      rw [ih _ (by rw [jsHasKey_jsSet_of_ne acc g k _ hkg]; exact h)]
      exact jsLookup_jsSet_of_ne acc g k _ hkg

theorem backfill_foldl_lookup_of_absent (L : List String) (acc : JsObj) (f : String)
    (hf : f ∈ L) (h : jsHasKey acc f = false) :
    jsLookup (L.foldl (fun acc f =>
      if jsHasKey acc f then acc else jsSet acc f (templateEmptyValue f)) acc) f
      = some (templateEmptyValue f) := by
  induction L generalizing acc with
  | nil => simp at hf
  | cons g t ih =>
    simp only [List.foldl_cons]
    by_cases hfg : f = g
    · subst hfg
      simp only [h, Bool.false_eq_true, if_false]
      rw [backfill_foldl_lookup_of_hasKey t _ f (jsHasKey_jsSet_self acc f _)]
      exact jsLookup_jsSet_self acc f _
    · have hft : f ∈ t := by
        rcases List.mem_cons.mp hf with e | e
        · exact absurd e hfg
        · exact e
      by_cases hg : jsHasKey acc g = true
      · simp only [hg, if_true]
        exact ih _ hft h
      · simp only [Bool.not_eq_true] at hg
        simp only [hg, Bool.false_eq_true, if_false]
        apply ih _ hft
        rw [jsHasKey_jsSet_of_ne acc g f _ hfg]
        exact h

/-! ## Helper lemmas: extraction, scraped articles and the details trace -/

theorem extractArticleContent_url (h u : String) (a : ScrapedArticle)
    (he : extractArticleContent h u = some a) : a.url = u := by
  unfold extractArticleContent at he
  cases hh : urlHostname u <;> simp [hh] at he
  rw [← he]

theorem extractArticleContent_hostname (h u : String) (a : ScrapedArticle)
    (he : extractArticleContent h u = some a) : (urlHostname u).isSome = true := by
  unfold extractArticleContent at he
  cases hh : urlHostname u <;> simp [hh] at he
  simp

theorem urlHostname_of_empty : urlHostname "" = none := rfl

theorem urlHostname_ne_empty (u : String) (h : (urlHostname u).isSome = true) :
    ¬(u = "") := by
  intro e
  subst e
  rw [urlHostname_of_empty] at h
  simp at h

theorem mem_successfulArticles (a : ScrapedArticle) (outs : List (Option ScrapedArticle))
    (h : a ∈ successfulArticles outs) : some a ∈ outs ∧ a.content.length > 100 := by
  unfold successfulArticles at h
  have h1 := List.mem_filter.mp h
  refine ⟨?_, by simpa using h1.2⟩
  rcases List.mem_filterMap.mp h1.1 with ⟨o, ho, heq⟩
  simp only [id] at heq
  subst heq
  exact ho

theorem scrapedDataArticles_url_truthy (o : DetailsOracles) (a : ScrapedArticle)
    (h : a ∈ scrapedDataArticles o) : jsTruthy (some a.url) = true := by
  have h1 := (mem_successfulArticles a _ h).1
  unfold fetchOutcomes at h1
  rcases List.mem_map.mp h1 with ⟨r, _, hr⟩
  unfold scrapeArticle at hr
  rcases Option.bind_eq_some.mp hr with ⟨html, _, hex⟩
  have hu := extractArticleContent_url html r.link a hex
  have hh := extractArticleContent_hostname html r.link a hex
  have hne : ¬(r.link = "") := urlHostname_ne_empty _ hh
  simp [jsTruthy, hu, hne]

theorem scrapedSourceUrls_eq_map (arts : List ScrapedArticle)
    (h : ∀ a ∈ arts, jsTruthy (some a.url) = true ∧ a.content.length > 100) :
    scrapedSourceUrls arts = arts.map (fun a => a.url) := by
  unfold scrapedSourceUrls
  congr 1
  rw [List.filter_eq_self]
  intro a ha
  have := h a ha
  simp [this.1, this.2]


theorem processEvent_cases (o : DetailsOracles) :
    ((processEvent o).2 = [] ∧ (processEvent o).1.isOk = false) ∨
    (∃ parsed, o.groq = Except.ok parsed ∧
      (((processEvent o).2 = [StoreOp.saveDetails (structuredDataOf o parsed) false] ∧
          (processEvent o).1.isOk = false ∧ o.saveError.isSome = true) ∨
       ((processEvent o).2 =
            [StoreOp.saveDetails (structuredDataOf o parsed) true,
             StoreOp.advanceWatermark o.timestampError.isNone] ∧
          (processEvent o).1 = Except.ok (structuredDataOf o parsed) ∧
          o.saveError = none))) := by
  cases h1 : o.eventFetch with
  | error e => left; constructor <;> simp [processEvent, h1, Except.isOk, Except.toBool]
  | ok v =>
    cases h2 : o.searchFailure with
    | some msg => left; constructor <;> simp [processEvent, h1, h2, Except.isOk, Except.toBool]
    | none =>
      by_cases h3 : (scrapedDataArticles o).isEmpty
      · left; constructor <;> simp [processEvent, h1, h2, h3, Except.isOk, Except.toBool]
      · cases h4 : o.groq with
        | error e => left; constructor <;> simp [processEvent, h1, h2, h3, h4, Except.isOk, Except.toBool]
        | ok parsed =>
          right
          refine ⟨parsed, rfl, ?_⟩
          cases h5 : o.saveError with
          | some err =>
            left
            refine ⟨?_, ?_, by simp [h5]⟩ <;>
              simp [processEvent, h1, h2, h3, h4, h5, structuredDataOf, Except.isOk, Except.toBool]
          | none =>
            right
            refine ⟨?_, ?_, rfl⟩ <;>
              simp [processEvent, h1, h2, h3, h4, h5, structuredDataOf, Except.isOk, Except.toBool]

/-! ## Claim C1 -/

/-- C1: for every successful pipeline run, the persisted `sources` field is
exactly the list of URLs of the fetched articles whose extracted body
exceeded the 100-character minimum-content threshold, whatever the LLM
returned (the oracle `o.groq` is arbitrary, including objects carrying a
`sources` key). -/
theorem sources_exactly_threshold_passing_fetched_urls
    (o : DetailsOracles) (d : JsObj) (b : Bool)
    (h : StoreOp.saveDetails d b ∈ (processEvent o).2) :
    jsLookup d "sources" =
      some (Json.arr
        ((((fetchOutcomes o).filterMap id).filter
            (fun a => decide (a.content.length > 100))).map
          (fun a => Json.str a.url))) := by
  rcases processEvent_cases o with ⟨he, _⟩ | ⟨parsed, hg, hcase⟩
  · rw [he] at h; simp at h
  · have hd : d = structuredDataOf o parsed := by
      rcases hcase with ⟨ht, _, _⟩ | ⟨ht, _, _⟩ <;> rw [ht] at h <;> simp at h <;>
        exact h.1
    subst hd
    unfold structuredDataOf
    rw [jsLookup_jsSet_of_ne _ _ _ _ (by decide), jsLookup_jsSet_self]
    have harts : ∀ a ∈ scrapedDataArticles o,
        jsTruthy (some a.url) = true ∧ a.content.length > 100 := by
      intro a ha
      exact ⟨scrapedDataArticles_url_truthy o a ha, (mem_successfulArticles a _ ha).2⟩
    rw [scrapedSourceUrls_eq_map _ harts]
    simp [scrapedDataArticles, successfulArticles, List.map_map]

set_option maxRecDepth 100000

/-- C1 witness: the demonstration run persists exactly the one fetched,
threshold-passing URL, not the hallucinated one offered by the LLM. -/
theorem sources_exactly_threshold_passing_fetched_urls_witness :
    jsLookup demoSavedObj "sources" =
      some (Json.arr [Json.str "https://example.com/a"]) := by
  have hmem : StoreOp.saveDetails demoSavedObj true ∈ (processEvent demoOraclesOk).2 := by
    have heq : (processEvent demoOraclesOk).2 =
        [StoreOp.saveDetails demoSavedObj true, StoreOp.advanceWatermark true] := rfl
    rw [heq]
    exact List.mem_cons_self _ _
  exact (sources_exactly_threshold_passing_fetched_urls demoOraclesOk demoSavedObj
    true hmem).trans (by rfl)

/-! ## Claim C2 -/

/-- C2 counterexample: a parsed LLM object that supplies `accused` with a
string value passes the validation loop unchanged, so the Synthesis Engine
output does not carry the claimed list-of-strings container for `accused`.
Only omitted keys are backfilled; present keys are never type-checked. -/
theorem synthesis_output_type_not_enforced :
    jsLookup (backfillRequiredFields [("accused", Json.str "unknown")]) "accused" =
      some (Json.str "unknown")
    ∧ ∀ xs : List Json, ¬(Json.str "unknown" = Json.arr xs) :=
  ⟨rfl, fun _ h => Json.noConfusion h⟩

/-- C2 amended: every Synthesis Engine output carries all five required
keys; each key omitted by the parsed LLM JSON is backfilled with its
type-appropriate empty value (empty string for location/details, empty
array for accused/victims/timeline, never null and never absent), while
keys present in the parsed JSON pass through unchanged, whatever their
type; the mocked response with only `location` set to Springfield yields
exactly the claimed record. -/
theorem synthesis_required_keys_present_and_backfilled (parsed : JsObj) :
    (∀ f ∈ requiredFields, jsHasKey (backfillRequiredFields parsed) f = true)
    ∧ (∀ f ∈ requiredFields, jsHasKey parsed f = false →
        jsLookup (backfillRequiredFields parsed) f = some (templateEmptyValue f))
    ∧ (∀ f, jsHasKey parsed f = true →
        jsLookup (backfillRequiredFields parsed) f = jsLookup parsed f)
    ∧ templateEmptyValue "location" = Json.str ""
    ∧ templateEmptyValue "details" = Json.str ""
    ∧ templateEmptyValue "accused" = Json.arr []
    ∧ templateEmptyValue "victims" = Json.arr []
    ∧ templateEmptyValue "timeline" = Json.arr []
    ∧ backfillRequiredFields [("location", Json.str "Springfield")] =
        [("location", Json.str "Springfield"), ("details", Json.str ""),
         ("accused", Json.arr []), ("victims", Json.arr []),
         ("timeline", Json.arr [])] := by
  refine ⟨?_, ?_, ?_, rfl, rfl, rfl, rfl, rfl, rfl⟩
  · exact backfill_foldl_mem_hasKey requiredFields parsed
  · intro f hf h
    exact backfill_foldl_lookup_of_absent requiredFields parsed f hf h
  · intro f h
    exact backfill_foldl_lookup_of_hasKey requiredFields parsed f h

/-- C2 witness: at the Springfield input, the `accused` key is present in
the output. -/
theorem synthesis_required_keys_present_and_backfilled_witness :
    jsHasKey (backfillRequiredFields [("location", Json.str "Springfield")])
      "accused" = true :=
  (synthesis_required_keys_present_and_backfilled
    [("location", Json.str "Springfield")]).1 "accused" (by simp [requiredFields])

/-! ## Claim C3 -/

theorem processEventUpdate_cases (u : UpdatesOracles) :
    ((processEventUpdate u).2 = [] ∧
      ∀ row, ¬((processEventUpdate u).1 = UpdateOutcome.success row)) ∨
    ((processEventUpdate u).2 = [UpdateOp.llmCall] ∧
      (processEventUpdate u).1 = UpdateOutcome.analysisFailed) ∨
    (∃ row, (processEventUpdate u).2 =
        [UpdateOp.llmCall, UpdateOp.insertUpdate row false] ∧
      (processEventUpdate u).1 = UpdateOutcome.insertFailed ∧
      u.groqAnalysis.isSome = true) ∨
    (∃ row, (processEventUpdate u).2 =
        [UpdateOp.llmCall, UpdateOp.insertUpdate row true,
         UpdateOp.advanceWatermark u.timestampError.isNone] ∧
      (processEventUpdate u).1 = UpdateOutcome.success row ∧
      u.groqAnalysis.isSome = true) := by
  by_cases h1 : apiKeyCheckFails u.apiKey u.secret = true
  · left; constructor
    · simp [processEventUpdate, h1]
    · intro row; simp [processEventUpdate, h1]
  · by_cases h2 : jsTruthy u.eventId = true
    · cases h3 : jsParseInt (u.eventId.getD "") with
      | none =>
        left; constructor
        · simp [processEventUpdate, h1, h2, h3]
        · intro row; simp [processEventUpdate, h1, h2, h3]
      | some n =>
        cases h4 : u.eventRow with
        | none =>
          left; constructor
          · simp [processEventUpdate, h1, h2, h3, h4]
          · intro row; simp [processEventUpdate, h1, h2, h3, h4]
        | some row =>
          by_cases h5 : (filteredUpdateResults u (eventLastUpdated u.dateParse row)).isEmpty = true
          · left; constructor
            · simp [processEventUpdate, h1, h2, h3, h4, h5]
            · intro r; simp [processEventUpdate, h1, h2, h3, h4, h5]
          · cases h6 : u.groqAnalysis with
            | none =>
              right; left
              constructor <;> simp [processEventUpdate, h1, h2, h3, h4, h5, h6]
            | some a =>
              cases h7 : u.insertError with
              | some err =>
                right; right; left
                refine ⟨(⟨row.event_id, jsSubstring a.title 100,
                    jsSubstring a.description 1000, u.nowIso⟩ : UpdateRecord), ?_, ?_, by simp [h6]⟩ <;>
                  simp [processEventUpdate, h1, h2, h3, h4, h5, h6, h7]
              | none =>
                right; right; right
                refine ⟨(⟨row.event_id, jsSubstring a.title 100,
                    jsSubstring a.description 1000, u.nowIso⟩ : UpdateRecord), ?_, ?_, by simp [h6]⟩ <;>
                  simp [processEventUpdate, h1, h2, h3, h4, h5, h6, h7]
    · left; constructor
      · simp [processEventUpdate, h1, h2]
      · intro row; simp [processEventUpdate, h1, h2]


/-- C3: in both pipelines the watermark write is issued if and only if the
run reached a successful persistence of its synthesized record (the
details upsert, or the event-update insert), a failed store write aborts
the run before any watermark write, and a watermark write never precedes
the record write in the trace. -/
theorem watermark_advance_iff_persist_success :
    (∀ o : DetailsOracles,
       ((∃ b, StoreOp.advanceWatermark b ∈ (processEvent o).2) ↔
         (∃ d, StoreOp.saveDetails d true ∈ (processEvent o).2))
       ∧ ((∃ b, StoreOp.advanceWatermark b ∈ (processEvent o).2) →
           o.groq.isOk = true ∧ (processEvent o).1.isOk = true)
       ∧ (∀ d, StoreOp.saveDetails d false ∈ (processEvent o).2 →
           (processEvent o).1.isOk = false ∧
             ∀ b, ¬(StoreOp.advanceWatermark b ∈ (processEvent o).2))
       ∧ (∀ i b, (processEvent o).2.get? i = some (StoreOp.advanceWatermark b) →
           ∃ j d, j < i ∧
             (processEvent o).2.get? j = some (StoreOp.saveDetails d true)))
    ∧ (∀ u : UpdatesOracles,
       ((∃ b, UpdateOp.advanceWatermark b ∈ (processEventUpdate u).2) ↔
         (∃ row, UpdateOp.insertUpdate row true ∈ (processEventUpdate u).2))
       ∧ ((∃ b, UpdateOp.advanceWatermark b ∈ (processEventUpdate u).2) →
           u.groqAnalysis.isSome = true)
       ∧ (∀ row, UpdateOp.insertUpdate row false ∈ (processEventUpdate u).2 →
           (processEventUpdate u).1 = UpdateOutcome.insertFailed ∧
             ∀ b, ¬(UpdateOp.advanceWatermark b ∈ (processEventUpdate u).2))
       ∧ (∀ i b, (processEventUpdate u).2.get? i =
             some (UpdateOp.advanceWatermark b) →
           ∃ j row, j < i ∧
             (processEventUpdate u).2.get? j =
               some (UpdateOp.insertUpdate row true))) := by
  constructor
  · intro o
    rcases processEvent_cases o with ⟨he, hok⟩ | ⟨parsed, hg, hcase⟩
    · rw [he]
      exact ⟨by simp, by simp, by simp, by simp⟩
    · rcases hcase with ⟨ht, hok, hsave⟩ | ⟨ht, hres, hsave⟩
      · rw [ht]
        refine ⟨by simp, by simp, ?_, ?_⟩
        · intro d hd
          exact ⟨hok, by simp⟩
        · intro i b hib
          rcases i with _ | i
          · simp at hib
          · rcases i with _ | i <;> simp at hib
      · rw [ht]
        refine ⟨?_, ?_, ?_, ?_⟩
        · constructor
          · intro _
            exact ⟨structuredDataOf o parsed, by simp⟩
          · intro _
            exact ⟨o.timestampError.isNone, by simp⟩
        · intro _
          refine ⟨by simp [hg, Except.isOk, Except.toBool], ?_⟩
          rw [hres]
          rfl
        · intro d hd
          simp at hd
        · intro i b hib
          rcases i with _ | i
          · simp at hib
          · exact ⟨0, structuredDataOf o parsed, Nat.succ_pos i, by simp⟩
  · intro u
    rcases processEventUpdate_cases u with ⟨he, _⟩ | ⟨he, _⟩ |
      ⟨row, he, hout, _⟩ | ⟨row, he, hout, hgroq⟩
    · rw [he]
      exact ⟨by simp, by simp, by simp, by simp⟩
    · rw [he]
      refine ⟨by simp, by simp, by simp, ?_⟩
      intro i b hib
      rcases i with _ | i <;> simp at hib
    · rw [he]
      refine ⟨by simp, by simp, ?_, ?_⟩
      · intro r hr
        exact ⟨hout, by simp⟩
      · intro i b hib
        rcases i with _ | i
        · simp at hib
        · rcases i with _ | i <;> simp at hib
    · rw [he]
      refine ⟨?_, ?_, ?_, ?_⟩
      · constructor
        · intro _
          exact ⟨row, by simp⟩
        · intro _
          exact ⟨u.timestampError.isNone, by simp⟩
      · intro _
        exact hgroq
      · intro r hr
        simp at hr
      · intro i b hib
        rcases i with _ | i
        · simp at hib
        · rcases i with _ | i
          · simp at hib
          · exact ⟨1, row, by omega, by simp⟩

/-- C3 witness: at the concrete run whose details write fails, the run
errors and no watermark write appears in the trace. -/
theorem watermark_advance_iff_persist_success_witness :
    (processEvent demoOraclesSaveFail).1.isOk = false ∧
    ¬(StoreOp.advanceWatermark true ∈ (processEvent demoOraclesSaveFail).2) := by
  have hmem : StoreOp.saveDetails demoSavedObj false ∈
      (processEvent demoOraclesSaveFail).2 := by
    have heq : (processEvent demoOraclesSaveFail).2 =
        [StoreOp.saveDetails demoSavedObj false] := rfl
    rw [heq]
    exact List.mem_cons_self _ _
  have h := (watermark_advance_iff_persist_success.1 demoOraclesSaveFail).2.2.1
    demoSavedObj hmem
  exact ⟨h.1, h.2 true⟩

/-! ## Claim C4 -/

/-- C4: when the authenticated, well-formed request finds its event row
but zero search results qualify as new, the run returns the no-update
outcome and performs no LLM call, no event-update insert and no watermark
write (its effect trace is empty). -/
theorem no_new_results_short_circuit
    (u : UpdatesOracles) (row : UpdateEvent)
    (hauth : apiKeyCheckFails u.apiKey u.secret = false)
    (hid : jsTruthy u.eventId = true)
    (hn : (jsParseInt (u.eventId.getD "")).isSome = true)
    (hrow : u.eventRow = some row)
    (hempty : filteredUpdateResults u (eventLastUpdated u.dateParse row) = []) :
    (processEventUpdate u).1 = UpdateOutcome.noNewUpdates ∧
    (processEventUpdate u).2 = [] ∧
    ¬(UpdateOp.llmCall ∈ (processEventUpdate u).2) ∧
    (∀ r b, ¬(UpdateOp.insertUpdate r b ∈ (processEventUpdate u).2)) ∧
    (∀ b, ¬(UpdateOp.advanceWatermark b ∈ (processEventUpdate u).2)) := by
  rcases Option.isSome_iff_exists.mp hn with ⟨n, hn2⟩
  have h2 : (processEventUpdate u) = (UpdateOutcome.noNewUpdates, []) := by
    simp [processEventUpdate, hauth, hid, hn2, hrow, hempty]
  rw [h2]
  refine ⟨rfl, rfl, by simp, ?_, by simp⟩
  intro r b
  simp

/-- C4 witness: the concrete run with the watermark equal to the clock and
all results dated earlier (or undated) returns the no-update outcome with
an empty effect trace. -/
theorem no_new_results_short_circuit_witness :
    (processEventUpdate demoUpdatesNoNew).1 = UpdateOutcome.noNewUpdates ∧
    (processEventUpdate demoUpdatesNoNew).2 = [] := by
  have h := no_new_results_short_circuit demoUpdatesNoNew
    { event_id := 7, query := "q", last_updated := some "2024-01-02" }
    (by decide) (by decide) rfl rfl rfl
  exact ⟨h.1, h.2.1⟩

/-! ## Claim C5 -/

/-- C5 counterexample: on the details endpoint an unknown event identifier
yields 500, not the claimed 404; the details POST handler returns success
without any shared-secret credential check at all, so a mismatched
credential can never produce 401 there; and the updates GET wrapper
answers 400, not 401, when the credential parameter is missing. -/
theorem status_taxonomy_counterexample :
    detailsGETStatus (some "secret") (some "42") (some "secret")
        demoOraclesNoEvent = 500
    ∧ ¬(detailsGETStatus (some "secret") (some "42") (some "secret")
        demoOraclesNoEvent = 404)
    ∧ detailsPOSTStatus (Except.ok (some "42")) demoOraclesOk = 200
    ∧ ¬(detailsPOSTStatus (Except.ok (some "42")) demoOraclesOk = 401)
    ∧ updatesGETStatus { demoUpdatesNoNew with apiKey := none } = 400
    ∧ ¬(updatesGETStatus { demoUpdatesNoNew with apiKey := none } = 401) := by
  refine ⟨rfl, by decide, rfl, by decide, rfl, by decide⟩

/-- C5 amended: the updates endpoint distinguishes the taxonomy once its
handler runs — 401 on a credential mismatch, 400 on a malformed id, 404
on a missing event, 500 on an internal failure (a failed analysis or a
failed event-update insert) — though both of its wrappers respond 400
when the credential parameter is absent (the POST wrapper behaves as the
GET wrapper once the body parses, and answers 500 when it does not); the
details GET distinguishes 401 and 400 but maps a missing event to 500
(its processing errors are not classified), and the details POST never
returns 401. -/
theorem status_taxonomy_partial :
    (∀ (a e s : Option String) (o : DetailsOracles),
        apiKeyCheckFails a s = true → detailsGETStatus a e s o = 401)
    ∧ (∀ (a e s : Option String) (o : DetailsOracles),
        apiKeyCheckFails a s = false → jsTruthy e = false →
          detailsGETStatus a e s o = 400)
    ∧ (∀ (a e s : Option String) (o : DetailsOracles),
        apiKeyCheckFails a s = false → jsTruthy e = true →
          (processEvent o).1.isOk = false → detailsGETStatus a e s o = 500)
    ∧ (∀ (bp : Except Unit (Option String)) (o : DetailsOracles),
        ¬(detailsPOSTStatus bp o = 401))
    ∧ (∀ u : UpdatesOracles,
        jsTruthy u.eventId = true → jsTruthy u.apiKey = true →
        apiKeyCheckFails u.apiKey u.secret = true → updatesGETStatus u = 401)
    ∧ (∀ u : UpdatesOracles,
        jsTruthy u.eventId = true → jsTruthy u.apiKey = true →
        apiKeyCheckFails u.apiKey u.secret = false →
        jsParseInt (u.eventId.getD "") = none → updatesGETStatus u = 400)
    ∧ (∀ u : UpdatesOracles,
        jsTruthy u.eventId = true → jsTruthy u.apiKey = true →
        apiKeyCheckFails u.apiKey u.secret = false →
        (jsParseInt (u.eventId.getD "")).isSome = true → u.eventRow = none →
        updatesGETStatus u = 404)
    ∧ (∀ u : UpdatesOracles,
        jsTruthy u.apiKey = false → updatesGETStatus u = 400)
    ∧ (∀ (u : UpdatesOracles) (row : UpdateEvent),
        jsTruthy u.eventId = true → jsTruthy u.apiKey = true →
        apiKeyCheckFails u.apiKey u.secret = false →
        (jsParseInt (u.eventId.getD "")).isSome = true →
        u.eventRow = some row →
        (filteredUpdateResults u
          (eventLastUpdated u.dateParse row)).isEmpty = false →
        u.groqAnalysis = none →
        updatesGETStatus u = 500)
    ∧ (∀ (u : UpdatesOracles) (row : UpdateEvent) (a : GroqAnalysis)
          (err : String),
        jsTruthy u.eventId = true → jsTruthy u.apiKey = true →
        apiKeyCheckFails u.apiKey u.secret = false →
        (jsParseInt (u.eventId.getD "")).isSome = true →
        u.eventRow = some row →
        (filteredUpdateResults u
          (eventLastUpdated u.dateParse row)).isEmpty = false →
        u.groqAnalysis = some a → u.insertError = some err →
        updatesGETStatus u = 500)
    ∧ (∀ u : UpdatesOracles,
        updatesPOSTStatus (Except.ok ()) u = updatesGETStatus u)
    ∧ (∀ u : UpdatesOracles,
        jsTruthy u.apiKey = false → updatesPOSTStatus (Except.ok ()) u = 400)
    ∧ (∀ u : UpdatesOracles,
        updatesPOSTStatus (Except.error ()) u = 500) := by
  refine ⟨?_, ?_, ?_, ?_, ?_, ?_, ?_, ?_, ?_, ?_, ?_, ?_, ?_⟩
  · intro a e s o h
    simp [detailsGETStatus, h]
  · intro a e s o h h2
    simp [detailsGETStatus, h, h2]
  · intro a e s o h h2 h3
    cases hp : (processEvent o).1 with
    | ok v => rw [hp] at h3; simp [Except.isOk, Except.toBool] at h3
    | error msg => simp [detailsGETStatus, h, h2, hp]
  · intro bp o
    cases bp with
    | error u => simp [detailsPOSTStatus]
    | ok eid =>
      by_cases he : jsTruthy eid = true
      · cases hp : (processEvent o).1 with
        | ok v => simp [detailsPOSTStatus, he, hp]
        | error msg => simp [detailsPOSTStatus, he, hp]
      · simp [detailsPOSTStatus, he]
  · intro u h1 h2 h3
    simp [updatesGETStatus, h1, h2, processEventUpdate, h3, updateStatusOf]
  · intro u h1 h2 h3 h4
    simp [updatesGETStatus, h1, h2, processEventUpdate, h3, h4, updateStatusOf]
  · intro u h1 h2 h3 h4 h5
    rcases Option.isSome_iff_exists.mp h4 with ⟨n, hn⟩
    simp [updatesGETStatus, h1, h2, processEventUpdate, h3, hn, h5, updateStatusOf]
  · intro u h
    simp [updatesGETStatus, h]
  · intro u row h1 h2 h3 h4 h5 h6 h7
    rcases Option.isSome_iff_exists.mp h4 with ⟨n, hn⟩
    simp [updatesGETStatus, h1, h2, processEventUpdate, h3, hn, h5, h6, h7,
      updateStatusOf]
  · intro u row a err h1 h2 h3 h4 h5 h6 h7 h8
    rcases Option.isSome_iff_exists.mp h4 with ⟨n, hn⟩
    simp [updatesGETStatus, h1, h2, processEventUpdate, h3, hn, h5, h6, h7,
      h8, updateStatusOf]
  · intro u
    rfl
  · intro u h
    simp [updatesPOSTStatus, h]
  · intro u
    rfl

/-- C5 witness: a concrete updates run with a valid credential and id but
no stored event answers 404. -/
theorem status_taxonomy_partial_witness :
    updatesGETStatus demoUpdatesNoRow = 404 :=
  status_taxonomy_partial.2.2.2.2.2.2.1 demoUpdatesNoRow
    (by decide) (by decide) (by decide) rfl rfl

/-! ## Claim C6 -/

theorem enum_pairwise_fst_ne {α : Type} (l : List α) :
    l.enum.Pairwise (fun a b => a.1 ≠ b.1) := by
  rw [List.pairwise_iff_getElem]
  intro i j hi hj hij
  simp only [List.getElem_enum]
  simp only [ne_eq]
  omega

theorem findIdx_eq_of_first {α : Type} (l : List α) (p : α → Bool) (i : Nat)
    (h : i < l.length) (hp : p l[i] = true)
    (hfirst : ∀ j, ∀ hj : j < l.length, j < i → p l[j] = false) :
    l.findIdx p = i := by
  have hle : l.findIdx p ≤ i := by
    by_contra hlt
    push_neg at hlt
    have := List.not_of_lt_findIdx hlt
    rw [hp] at this
    cases this
  rcases Nat.lt_or_ge (l.findIdx p) i with hlt | hge
  · have hlen : l.findIdx p < l.length := Nat.lt_trans hlt h
    have htrue : p l[l.findIdx p] = true := @List.findIdx_getElem _ p l hlen
    rw [hfirst _ hlen hlt] at htrue
    cases htrue
  · omega

theorem countP_le_one_of_pairwise_ne {α : Type} (l : List α) (f : α → String)
    (u : String) (h : l.Pairwise (fun a b => ¬(f a = f b))) :
    l.countP (fun a => decide (f a = u)) ≤ 1 := by
  induction l with
  | nil => simp
  | cons a t ih =>
    rcases List.pairwise_cons.mp h with ⟨hrel, htail⟩
    rw [List.countP_cons]
    by_cases ha : f a = u
    · have hz : t.countP (fun x => decide (f x = u)) = 0 := by
        rw [List.countP_eq_zero]
        intro x hx
        simp only [decide_eq_true_eq]
        intro hfx
        exact (hrel x hx) (ha.trans hfx.symm)
      simp [ha, hz]
    · have hd : decide (f a = u) = false := by simp [ha]
      rw [hd]
      simpa using ih htail

theorem filterNewsResults_mem_decomp (rs : List GoogleSearchResult)
    (r : GoogleSearchResult) (hr : r ∈ filterNewsResults rs) :
    ∃ i, ∃ h : i < rs.length, rs[i] = r ∧
      rs.findIdx (fun x => decide (x.link = r.link)) = i ∧
      keepResult r = true := by
  unfold filterNewsResults at hr
  rcases List.mem_map.mp hr with ⟨p, hpf, hps⟩
  rcases List.mem_filter.mp hpf with ⟨hpe, hP⟩
  rw [Bool.and_eq_true] at hP
  rcases hP with ⟨hidx, hkeep⟩
  have hg := List.mem_enum_iff_getElem?.mp hpe
  rcases List.getElem?_eq_some.mp hg with ⟨hlen, hget⟩
  subst hps
  exact ⟨p.1, hlen, hget, by simpa using hidx, hkeep⟩

/-- C7: the Result Filter output is order-stable (a sublist of the input),
free of denylisted and title- or snippet-less entries, contains only first
occurrences of each link, never two entries of one link, and contains
exactly one entry for a link whose first input occurrence passes the
denylist and title/snippet checks. -/
theorem result_filter_spec (rs : List GoogleSearchResult) :
    (filterNewsResults rs).Sublist rs
    ∧ (∀ r ∈ filterNewsResults rs,
        (excludeDomains.any (fun ex =>
          jsIncludes (jsToLower (r.displayLink.getD "")) ex ||
            jsIncludes (jsToLower r.link) ex)) = false
        ∧ ¬(r.title = "") ∧ ¬(r.snippet = ""))
    ∧ (∀ r ∈ filterNewsResults rs, ∃ i, ∃ h : i < rs.length, rs[i] = r ∧
        ∀ j, ∀ hj : j < rs.length, j < i → ¬(rs[j].link = r.link))
    ∧ (filterNewsResults rs).Pairwise (fun a b => ¬(a.link = b.link))
    ∧ (∀ i, ∀ h : i < rs.length,
        (∀ j, ∀ hj : j < rs.length, j < i → ¬(rs[j].link = rs[i].link)) →
        keepResult rs[i] = true →
        (filterNewsResults rs).countP
          (fun r => decide (r.link = rs[i].link)) = 1) := by
  have hpw : (filterNewsResults rs).Pairwise (fun a b => ¬(a.link = b.link)) := by
    unfold filterNewsResults
    rw [List.pairwise_map]
    have henum := enum_pairwise_fst_ne rs
    have hsub := @List.filter_sublist _
      (fun p => decide (rs.findIdx (fun r => decide (r.link = p.2.link)) = p.1)
        && keepResult p.2) rs.enum
    have hpw2 := List.Pairwise.sublist hsub henum
    apply List.Pairwise.imp_of_mem ?_ hpw2
    intro p q hp hq hne heq
    have hPp := (List.mem_filter.mp hp).2
    have hPq := (List.mem_filter.mp hq).2
    rw [Bool.and_eq_true] at hPp hPq
    rcases hPp with ⟨hip, _⟩
    rcases hPq with ⟨hiq, _⟩
    apply hne
    have hip2 : rs.findIdx (fun r => decide (r.link = p.2.link)) = p.1 := by
      simpa using hip
    have hiq2 : rs.findIdx (fun r => decide (r.link = q.2.link)) = q.1 := by
      simpa using hiq
    rw [← hip2, ← hiq2, heq]
  refine ⟨?_, ?_, ?_, hpw, ?_⟩
  · have h2 := List.Sublist.map Prod.snd (List.filter_sublist
      (l := rs.enum)
      (p := fun p => decide (rs.findIdx (fun r => decide (r.link = p.2.link)) = p.1)
        && keepResult p.2))
    rw [List.enum_map_snd] at h2
    exact h2
  · intro r hr
    rcases filterNewsResults_mem_decomp rs r hr with ⟨i, h, hget, hidx, hkeep⟩
    simp only [keepResult, Bool.and_eq_true, Bool.not_eq_true'] at hkeep
    rcases hkeep with ⟨⟨hex, ht⟩, hs⟩
    refine ⟨hex, ?_, ?_⟩
    · simpa [jsTruthy] using ht
    · simpa [jsTruthy] using hs
  · intro r hr
    rcases filterNewsResults_mem_decomp rs r hr with ⟨i, h, hget, hidx, _⟩
    refine ⟨i, h, hget, ?_⟩
    intro j hj hji
    have hd : decide (rs[j].link = r.link) = false :=
      List.not_of_lt_findIdx (by rw [hidx]; exact hji)
    simpa using hd
  · intro i h hfirst hkeep
    have hpe : ((i, rs[i]) : Nat × GoogleSearchResult) ∈ rs.enum := by
      rw [List.mem_enum_iff_getElem?]
      exact List.getElem?_eq_getElem h
    have hfi : rs.findIdx (fun x => decide (x.link = rs[i].link)) = i := by
      apply findIdx_eq_of_first rs _ i h (by simp)
      intro j hj hji
      simp [hfirst j hj hji]
    have hmem2 : rs[i] ∈ filterNewsResults rs := by
      unfold filterNewsResults
      apply List.mem_map.mpr
      refine ⟨(i, rs[i]), ?_, rfl⟩
      apply List.mem_filter.mpr
      exact ⟨hpe, by simp [hfi, hkeep]⟩
    have hge : 0 < (filterNewsResults rs).countP
        (fun r => decide (r.link = rs[i].link)) :=
      List.countP_pos_iff.mpr ⟨rs[i], hmem2, by simp⟩
    have hle : (filterNewsResults rs).countP
        (fun r => decide (r.link = rs[i].link)) ≤ 1 := by
      have := countP_le_one_of_pairwise_ne (filterNewsResults rs)
        (fun r => r.link) (rs[i].link) hpw
      simpa using this
    omega


/-- C7 witness: two raw results with the same link, both passing the
checks, leave exactly one entry in the filter output. -/
theorem result_filter_spec_witness :
    (filterNewsResults
      [{ title := "t1", link := "https://a.com/x", snippet := "s1",
         displayLink := some "a.com" },
       { title := "t2", link := "https://a.com/x", snippet := "s2",
         displayLink := some "a.com" }]).countP
      (fun r => decide (r.link = "https://a.com/x")) = 1 := by
  have h := (result_filter_spec
    [{ title := "t1", link := "https://a.com/x", snippet := "s1",
       displayLink := some "a.com" },
     { title := "t2", link := "https://a.com/x", snippet := "s2",
       displayLink := some "a.com" }]).2.2.2.2 0 (by decide)
    (fun j hj hji => absurd hji (Nat.not_lt_zero j)) (by decide)
  simpa using h

/-! ## Claim C8 -/

/-- C8 counterexample: the main details route embeds every scraped article
in the prompt with no cap and no longest-first ordering: sixteen articles
of strictly growing body length are all embedded, in scrape order
(shortest first), exceeding every representative cap (N = 15 in the
part_000 variant, the largest value the spec names). -/
theorem prompt_cap_missing_in_main_route :
    (articleEntriesMain demoArts16).length = 16
    ∧ 15 < (articleEntriesMain demoArts16).length
    ∧ promptArticlesMain demoArts16 = demoArts16
    ∧ ((promptArticlesMain demoArts16).head?.map
        (fun a => a.content.length)) = some 101
    ∧ ((promptArticlesMain demoArts16).getLast?.map
        (fun a => a.content.length)) = some 116 := by
  refine ⟨rfl, by decide, rfl, rfl, rfl⟩

/-- C8 amended: the main details route embeds all scraped articles in
scrape order (no cap of its own; the scrape stage bounds the set at 20),
while the part_000 variant implements the claimed selection with N = 15:
its prompt keeps at most 15 articles, sorted longest-extracted-body
first, and every excluded article has a body no longer than every kept
one. -/
theorem prompt_article_selection (arts : List ScrapedArticle) :
    (articleEntriesMain arts).length = arts.length
    ∧ promptArticlesMain arts = arts
    ∧ (topArticlesVariant arts).length = min 15 arts.length
    ∧ (topArticlesVariant arts).Pairwise
        (fun a b => b.content.length ≤ a.content.length)
    ∧ ∃ rest, arts.Perm (topArticlesVariant arts ++ rest) ∧
        ∀ b ∈ rest, ∀ a ∈ topArticlesVariant arts,
          b.content.length ≤ a.content.length := by
  have htrans : ∀ a b c : ScrapedArticle,
      (decide (b.content.length ≤ a.content.length)) = true →
      (decide (c.content.length ≤ b.content.length)) = true →
      (decide (c.content.length ≤ a.content.length)) = true := by
    intro a b c h1 h2
    simp only [decide_eq_true_eq] at h1 h2 ⊢
    omega
  have htotal : ∀ a b : ScrapedArticle,
      ((decide (b.content.length ≤ a.content.length)) ||
        (decide (a.content.length ≤ b.content.length))) = true := by
    intro a b
    rcases Nat.le_total b.content.length a.content.length with h | h <;> simp [h]
  have hsorted := @List.sorted_mergeSort _ (fun a b : ScrapedArticle =>
    decide (b.content.length ≤ a.content.length)) htrans htotal arts
  have hperm := List.mergeSort_perm arts (fun a b : ScrapedArticle =>
    decide (b.content.length ≤ a.content.length))
  refine ⟨?_, rfl, ?_, ?_, ?_⟩
  · simp [articleEntriesMain, promptArticlesMain]
  · rw [topArticlesVariant, List.length_take, hperm.length_eq]
  · apply List.Pairwise.imp ?_
      (List.Pairwise.sublist (List.take_sublist 15 _) hsorted)
    intro a b h
    simpa using h
  · refine ⟨(arts.mergeSort (fun a b : ScrapedArticle =>
      decide (b.content.length ≤ a.content.length))).drop 15, ?_, ?_⟩
    · rw [topArticlesVariant, List.take_append_drop]
      exact hperm.symm
    · intro b hb a ha
      rw [← List.take_append_drop 15 (arts.mergeSort (fun a b : ScrapedArticle =>
        decide (b.content.length ≤ a.content.length)))] at hsorted
      rcases (List.pairwise_append.mp hsorted) with ⟨_, _, hcross⟩
      have := hcross a ha b hb
      simpa using this

/-- C8 witness: at the sixteen-article input the variant keeps exactly 15
articles. -/
theorem prompt_article_selection_witness :
    (topArticlesVariant demoArts16).length = min 15 demoArts16.length :=
  (prompt_article_selection demoArts16).2.2.1

/-! ## Claims C9 and C10 -/

/-- C9: a search result counts as new exactly when its date metadata is
present, parses to a valid date no later than the clock, and is strictly
after the (valid) watermark; absent, unparseable or future dates, and
dates at or before the watermark, never qualify. -/
theorem article_counts_as_new_iff (parse : String → Option Int)
    (now lu : Int) (ds : Option String) :
    isArticleNewer (parseArticleDate parse now ds) (some lu) = true ↔
      ∃ s t, ds = some s ∧ ¬(s = "") ∧ parse s = some t ∧ t ≤ now ∧ lu < t := by
  cases ds with
  | none => simp [parseArticleDate, isArticleNewer]
  | some s =>
    by_cases hs : s = ""
    · simp [parseArticleDate, isArticleNewer, hs]
    · cases hp : parse s with
      | none => simp [parseArticleDate, isArticleNewer, hs, hp]
      | some t =>
        by_cases hf : t > now
        · simp only [parseArticleDate, hs, if_false, hp, hf, if_true,
            isArticleNewer]
          constructor
          · intro h; cases h
          · rintro ⟨s2, t2, he, _, hp2, hle, _⟩
            cases he
            rw [hp] at hp2
            cases hp2
            omega
        · simp only [parseArticleDate, hs, if_false, hp, hf, if_false,
            isArticleNewer, decide_eq_true_eq]
          constructor
          · intro h
            exact ⟨s, t, rfl, hs, hp, by omega, h⟩
          · rintro ⟨s2, t2, he, _, hp2, _, hlt⟩
            cases he
            rw [hp] at hp2
            cases hp2
            exact hlt

/-- C9 witness: a result dated 700 against a watermark of 500 and a clock
of 1000 counts as new. -/
theorem article_counts_as_new_iff_witness :
    isArticleNewer (parseArticleDate demoDateParse 1000 (some "d"))
      (some 500) = true :=
  (article_counts_as_new_iff demoDateParse 1000 500 (some "d")).mpr
    ⟨"d", 700, rfl, by decide, rfl, by decide, by decide⟩

theorem jsIncludes_toLower_of_jsIncludes (l sub : String)
    (hfix : sub.data.map Char.toLower = sub.data)
    (h : jsIncludes l sub = true) : jsIncludes (jsToLower l) sub = true := by
  simp only [jsIncludes, decide_eq_true_eq] at h ⊢
  have h2 := List.IsInfix.map Char.toLower h
  rw [hfix] at h2
  exact h2

/-- C10: `searchImages` returns at most 10 links; none contains the
substrings favicon.ico, /logo. or /icon., and each contains (up to ASCII
case) an image file extension or one of the tokens image, photo, pic. -/
theorem image_links_filtered (items : List (Option String)) :
    (searchImagesLinks items).length ≤ 10
    ∧ ∀ l ∈ searchImagesLinks items,
        jsIncludes l "favicon.ico" = false
        ∧ jsIncludes l "/logo." = false
        ∧ jsIncludes l "/icon." = false
        ∧ (jsIncludes (jsToLower l) ".jpg" = true ∨
           jsIncludes (jsToLower l) ".jpeg" = true ∨
           jsIncludes (jsToLower l) ".png" = true ∨
           jsIncludes (jsToLower l) ".webp" = true ∨
           jsIncludes (jsToLower l) ".gif" = true ∨
           jsIncludes (jsToLower l) ".bmp" = true ∨
           jsIncludes (jsToLower l) "image" = true ∨
           jsIncludes (jsToLower l) "photo" = true ∨
           jsIncludes (jsToLower l) "pic" = true) := by
  constructor
  · exact List.length_take_le 10 _
  · intro l hl
    have hmem : l ∈ ((items.filterMap id).filter
        (fun l => jsTruthy (some l))).filter imageUrlFilter :=
      List.Sublist.mem hl (List.take_sublist 10 _)
    have hf := (List.mem_filter.mp hmem).2
    simp only [imageUrlFilter, Bool.and_eq_true, Bool.not_eq_true'] at hf
    rcases hf with ⟨⟨⟨hfav, hlogo⟩, hicon⟩, htok⟩
    have hneg : ∀ sub : String, sub.data.map Char.toLower = sub.data →
        jsIncludes (jsToLower l) sub = false → jsIncludes l sub = false := by
      intro sub hfix hlow
      by_contra hc
      rw [Bool.not_eq_false] at hc
      have := jsIncludes_toLower_of_jsIncludes l sub hfix hc
      rw [hlow] at this
      cases this
    refine ⟨hneg _ (by decide) hfav, hneg _ (by decide) hlogo,
      hneg _ (by decide) hicon, ?_⟩
    simp only [Bool.or_eq_true] at htok
    tauto

/-- C10 witness: a returned uppercase-extension link satisfies every
clause of the filter contract. -/
theorem image_links_filtered_witness :
    jsIncludes "https://x.com/a.JPG" "favicon.ico" = false
    ∧ jsIncludes "https://x.com/a.JPG" "/logo." = false
    ∧ jsIncludes "https://x.com/a.JPG" "/icon." = false
    ∧ (jsIncludes (jsToLower "https://x.com/a.JPG") ".jpg" = true ∨
       jsIncludes (jsToLower "https://x.com/a.JPG") ".jpeg" = true ∨
       jsIncludes (jsToLower "https://x.com/a.JPG") ".png" = true ∨
       jsIncludes (jsToLower "https://x.com/a.JPG") ".webp" = true ∨
       jsIncludes (jsToLower "https://x.com/a.JPG") ".gif" = true ∨
       jsIncludes (jsToLower "https://x.com/a.JPG") ".bmp" = true ∨
       jsIncludes (jsToLower "https://x.com/a.JPG") "image" = true ∨
       jsIncludes (jsToLower "https://x.com/a.JPG") "photo" = true ∨
       jsIncludes (jsToLower "https://x.com/a.JPG") "pic" = true) :=
  (image_links_filtered [some "https://x.com/a.JPG",
    some "https://x.com/favicon.ico"]).2 "https://x.com/a.JPG" (by decide)

end DeadLine
